import Mathlib

/-!
Verification of `plugins/jira/tasks/epic_collector.go` (apache/incubator-devlake).

The file under `src/` instantiates the generic paginated-collection engine
(`helper.ApiCollector`, `helper.NewBatchedDalCursorIterator`) for Jira epics.
We shallowly embed the Go code: dynamically typed Go values become an
inductive `GoVal`, a Go panic becomes an explicit `GoPanic` error value,
`url.Values` becomes an association list with `Set` semantics, and the
JSON decoding performed by `json.Unmarshal` is modelled field by field.
Parts of the engine that are not in the source tree (the worker pool, the
pagination stop condition, the batched cursor iterator) are modelled from
the specification and marked as such.
-/

namespace EpicCollector

/-- A dynamically typed Go value (`interface{}`), restricted to the shapes
that can reach the collector's `Query` closure: a `*string` (possibly nil),
a `[]interface{}` slice, and a few other scalar shapes standing for "any
other dynamic type" on which a type assertion fails. -/
inductive GoVal where
  | strPtr (s : Option String)
  | slice (xs : List GoVal)
  | intVal (n : Int)
  | strVal (s : String)
  | nilVal
  deriving Repr

/-- The two ways the `Query` closure can panic on a malformed input:
a failed type assertion (`reqData.Input.([]interface{})` or `e.(*string)`)
or a nil-pointer dereference (`*e` with `e` a nil `*string`). -/
inductive GoPanic where
  | typeAssertion
  | nilDeref
  deriving Repr, DecidableEq

/-- The pagination state handed to the `Query` closure by the engine
(`helper.Pager`): `Skip` and `Size` are Go `int`s. -/
structure Pager where
  skip : Int
  size : Int
  deriving Repr, DecidableEq

/-- Modelled from the spec: the engine hands the Query Builder one batch of
input items and the current pagination state; the helper's `RequestData`
carries the input (`Input interface{}`), the pager, and further fields the
epic collector's `Query` closure never reads (modelled by `customData`). -/
structure RequestData where
  input : GoVal
  pager : Pager
  customData : GoVal
  deriving Repr

/-- `url.Values.Set`: replace any existing values for the key, keep one. -/
def urlValuesSet (vs : List (String × String)) (k v : String) :
    List (String × String) :=
  (vs.filter fun p => p.1 ≠ k) ++ [(k, v)]

/-- `url.Values.Get`: first value associated with the key, if any. -/
def urlValuesGet (vs : List (String × String)) (k : String) : Option String :=
  (vs.find? fun p => p.1 = k).map Prod.snd

/-- A Go `time.Time` restricted to the components used by the layout
`"2006/01/02 15:04"`. -/
structure GoTime where
  year : Nat
  month : Nat
  day : Nat
  hour : Nat
  minute : Nat
  deriving Repr, DecidableEq

/-- Zero-pad a natural number to two digits, as Go's `01`/`02`/`15`/`04`
layout fields do. -/
def pad2 (n : Nat) : String :=
  if n < 10 then "0" ++ toString n else toString n

/-- Zero-pad a natural number to four digits, as Go's `2006` layout field
does. -/
def pad4 (n : Nat) : String :=
  if n < 10 then "000" ++ toString n
  else if n < 100 then "00" ++ toString n
  else if n < 1000 then "0" ++ toString n
  else toString n

/-- `since.Format("2006/01/02 15:04")`. -/
def formatSince (t : GoTime) : String :=
  pad4 t.year ++ "/" ++ pad2 t.month ++ "/" ++ pad2 t.day ++ " " ++
    pad2 t.hour ++ ":" ++ pad2 t.minute

/-- The `jql` variable of `CollectEpics` (epic_collector.go lines 56-61):
`"ORDER BY created ASC"`, with `"updated >= '<since>' "` prepended when
`data.Since` is non-nil. -/
def mkJql (since : Option GoTime) : String :=
  match since with
  | none => "ORDER BY created ASC"
  | some t => "updated >= '" ++ formatSince t ++ "' " ++ "ORDER BY created ASC"

/-- The range-loop body of the `Query` closure: dereference each element of
the slice as a `*string`, in order; the first element that is not a
`*string` panics with a failed type assertion, a nil `*string` panics on
dereference. -/
def derefStrings : List GoVal → Except GoPanic (List String)
  | [] => .ok []
  | .strPtr (some s) :: rest =>
    match derefStrings rest with
    | .ok tl => .ok (s :: tl)
    | .error p => .error p
  | .strPtr none :: _ => .error .nilDeref
  | _ :: _ => .error .typeAssertion

/-- `reqData.Input.([]interface{})` followed by the dereferencing loop. -/
def extractEpicKeys (input : GoVal) : Except GoPanic (List String) :=
  match input with
  | .slice xs => derefStrings xs
  | _ => .error .typeAssertion

/-- The `Query` closure of `CollectEpics` (epic_collector.go lines 75-87),
with the captured `jql` suffix passed explicitly.  On success it returns
the built `url.Values` together with the (unchanged) request data; the Go
closure's `errors.Error` result is always nil on the non-panicking path, so
success carries no error value. -/
def CollectEpicsQueryWith (jql : String) (reqData : RequestData) :
    Except GoPanic (List (String × String) × RequestData) :=
  match extractEpicKeys reqData.input with
  | .error p => .error p
  | .ok epicKeys =>
    let localJQL :=
      "issue in (" ++ String.intercalate "," epicKeys ++ ") " ++ jql
    let query := urlValuesSet [] "jql" localJQL
    let query := urlValuesSet query "startAt" (toString reqData.pager.skip)
    let query := urlValuesSet query "maxResults" (toString reqData.pager.size)
    let query := urlValuesSet query "expand" "changelog"
    .ok (query, reqData)

/-- The slice shape the `Query` closure's type assertions require:
a `[]interface{}` whose every element is a non-nil `*string`. -/
def isNonNilStrPtr : GoVal → Bool
  | .strPtr (some _) => true
  | _ => false

/-- Boolean check of the precondition of the `Query` closure. -/
def wellShapedInput : GoVal → Bool
  | .slice xs => xs.all isNonNilStrPtr
  | _ => false

/-- Encode a batch of keys the way the engine's iterator hands them to the
closure: a `[]interface{}` of non-nil `*string`s. -/
def encodeBatch (keys : List String) : GoVal :=
  .slice (keys.map fun k => .strPtr (some k))

/-- A JSON value, the parse result of a response body blob. -/
inductive Json where
  | null
  | boolVal (b : Bool)
  | num (n : Int)
  | str (s : String)
  | arr (xs : List Json)
  | obj (fields : List (String × Json))
  deriving Repr

/-- Field-name matching used by `json.Unmarshal` for the struct field
`Issues []json.RawMessage \x60json:"issues"\x60`: an exact match or a
case-insensitive match on the tag name. -/
def keyMatchesIssues (k : String) : Bool :=
  k = "issues" || k.toLower = "issues"

/-- Decoding one JSON value into the Go field `Issues []json.RawMessage`:
JSON `null` leaves the slice nil, an array yields its raw elements in
order, anything else is an `UnmarshalTypeError`. -/
def decodeIssuesField : Json → Option (List Json)
  | .null => some []
  | .arr xs => some xs
  | _ => none

/-- `json.Unmarshal`'s walk over the keys of a JSON object being decoded
into the anonymous struct: keys that do not match `issues` are ignored,
each matching key's value is decoded into the field (later occurrences
overwriting earlier ones), and a type error on any matching occurrence
makes the whole `Unmarshal` return an error. -/
def decodeIssuesFields : List (String × Json) → List Json → Option (List Json)
  | [], cur => some cur
  | (k, v) :: rest, cur =>
    if keyMatchesIssues k then
      match decodeIssuesField v with
      | none => none
      | some xs => decodeIssuesFields rest xs
    else decodeIssuesFields rest cur

/-- `json.Unmarshal(blob, &data)` where `data` is the anonymous struct with
the single field `Issues`: the top-level JSON value must be an object (or
`null`, which leaves the zero value untouched); any other top level is an
`UnmarshalTypeError`. -/
def unmarshalIssues : Json → Option (List Json)
  | .null => some []
  | .obj fields => decodeIssuesFields fields []
  | _ => none

/-- The ways the `ResponseParser` closure returns a non-nil error:
`io.ReadAll` failing, or `json.Unmarshal` failing. -/
inductive ParseErr where
  | readFailed
  | unmarshalFailed
  deriving Repr, DecidableEq

/-- An HTTP response body as the parser sees it: reading the body can fail
(`readErr`), and the blob read either parses to a JSON value or is not
valid JSON (`json = none`). -/
structure HttpResponse where
  readErr : Bool
  json : Option Json
  deriving Repr

/-- The `ResponseParser` closure of `CollectEpics` (epic_collector.go lines
91-104): read the body, unmarshal it into a struct with an `issues` field,
and return the raw records found there. -/
def CollectEpicsResponseParser (res : HttpResponse) :
    Except ParseErr (List Json) :=
  if res.readErr then .error .readFailed
  else
    match res.json with
    | none => .error .unmarshalFailed
    | some j =>
      match unmarshalIssues j with
      | none => .error .unmarshalFailed
      | some issues => .ok issues

/-- The values of the object fields whose key matches `issues`, in document
order. -/
def matchingIssuesValues (fields : List (String × Json)) : List Json :=
  (fields.filter fun kv => keyMatchesIssues kv.1).map Prod.snd

/-- Does the string `s` begin with the string `pre`?  (Executable check on
the underlying character lists.) -/
def strBeginsWith (s pre : String) : Bool :=
  pre.data.isPrefixOf s.data

/-- A devlake `errors.Error`: either a base error or a wrapped one
(`errors.Default.Wrap(err, msg)` keeps the cause). -/
inductive GoError where
  | base (msg : String)
  | wrap (msg : String) (cause : GoError)
  deriving Repr, DecidableEq

/-- Jira task options: `ConnectionId` and `BoardId` are `uint64`. -/
structure JiraOptions where
  connectionId : Nat
  boardId : Nat
  deriving Repr, DecidableEq

/-- `JiraApiParams` as used by the collector construction: connection id
and board id. -/
structure JiraApiParams where
  connectionId : Nat
  boardId : Nat
  deriving Repr, DecidableEq

/-- The slice of `JiraTaskData` read by `CollectEpics`: the options and the
optional `Since` watermark. -/
structure JiraTaskData where
  options : JiraOptions
  since : Option GoTime
  deriving Repr

/-- A row of `_tool_jira_issues` restricted to the columns the epic-key
query touches. -/
structure JiraIssueRow where
  connection_id : Nat
  issue_id : Nat
  epic_key : String
  deriving Repr, DecidableEq

/-- A row of `_tool_jira_board_issues` restricted to the columns the
epic-key query touches. -/
structure JiraBoardIssueRow where
  connection_id : Nat
  board_id : Nat
  issue_id : Nat
  deriving Repr, DecidableEq

/-- SQL `LEFT JOIN _tool_jira_board_issues bi ON (i.connection_id =
bi.connection_id AND i.issue_id = bi.issue_id)`: every issue row is paired
with each matching board-issue row, or with `none` when no row matches. -/
def leftJoinBoardIssues (issues : List JiraIssueRow)
    (boardIssues : List JiraBoardIssueRow) :
    List (JiraIssueRow × Option JiraBoardIssueRow) :=
  issues.flatMap fun i =>
    let ms := boardIssues.filter fun bi =>
      bi.connection_id = i.connection_id && bi.issue_id = i.issue_id
    if ms.isEmpty then [(i, none)] else ms.map fun bi => (i, some bi)

/-- The WHERE clause of the epic-key query evaluated on one joined row:
`i.connection_id = ? AND bi.board_id = ? AND i.epic_key != ''`.  SQL
three-valued logic makes the comparison false on an unmatched (NULL)
board-issue side. -/
def epicKeyWhere (connId boardId : Nat)
    (row : JiraIssueRow × Option JiraBoardIssueRow) : Bool :=
  row.1.connection_id = connId &&
    (match row.2 with
     | some bi => bi.board_id = boardId
     | none => false) &&
    row.1.epic_key ≠ ""

/-- The result set of the cursor query of `GetEpicKeysIterator`
(epic_collector.go lines 113-131): `SELECT DISTINCT epic_key` over the
join, filtered by the WHERE clause. -/
def epicKeysQuery (issues : List JiraIssueRow)
    (boardIssues : List JiraBoardIssueRow) (connId boardId : Nat) :
    List String :=
  (((leftJoinBoardIssues issues boardIssues).filter
      (epicKeyWhere connId boardId)).map fun row => row.1.epic_key).dedup

/-- Modelled from the spec: the batched cursor iterator
(`helper.NewBatchedDalCursorIterator`, not in the source tree) wraps the
cursor's rows and a batch size, grouping rows into batches of at most
`batchSize`. -/
structure BatchedIterator where
  rows : List String
  batchSize : Nat
  deriving Repr, DecidableEq

/-- The database handle as `GetEpicKeysIterator` uses it: the two tables
the query reads, plus environment-chosen failure outcomes for building the
cursor (`db.Cursor`) and the batched iterator. -/
structure Dal where
  issues : List JiraIssueRow
  board_issues : List JiraBoardIssueRow
  cursorErr : Option GoError
  iterErr : Option GoError
  deriving Repr

/-- Instrumentation effects recording what `CollectEpics` does, in order:
querying the input database, building the batched iterator, constructing
the collector, executing it, and (inside execution) issuing remote
requests. -/
inductive Effect where
  | dbQuery
  | buildIterator
  | constructCollector
  | executeCollector
  | remoteRequest
  deriving Repr, DecidableEq

/-- `GetEpicKeysIterator` (epic_collector.go lines 112-139): build the
cursor for the DISTINCT epic-key query — wrapping a failure with
"unable to query for external epics" — then wrap the cursor into a batched
iterator with the given batch size.  The returned effect list records the
attempted steps. -/
def GetEpicKeysIterator (db : Dal) (data : JiraTaskData) (batchSize : Nat) :
    List Effect × Except GoError BatchedIterator :=
  match db.cursorErr with
  | some e =>
    ([.dbQuery], .error (.wrap "unable to query for external epics" e))
  | none =>
    match db.iterErr with
    | some e => ([.dbQuery, .buildIterator], .error e)
    | none =>
      ([.dbQuery, .buildIterator],
       .ok { rows := epicKeysQuery db.issues db.board_issues
                       data.options.connectionId data.options.boardId,
             batchSize := batchSize })

/-- `RAW_EPIC_TABLE` (epic_collector.go line 37). -/
def RAW_EPIC_TABLE : String := "jira_api_epics"

/-- The scalar arguments `CollectEpics` fixes when constructing the
collector (epic_collector.go lines 62-90): params, raw table, page size,
incremental flag, url template, concurrency. -/
structure ApiCollectorArgs where
  params : JiraApiParams
  table : String
  pageSize : Nat
  incremental : Bool
  urlTemplate : String
  concurrency : Nat
  deriving Repr, DecidableEq

/-- The collector arguments as `CollectEpics` builds them from the task
data. -/
def mkEpicCollectorArgs (data : JiraTaskData) : ApiCollectorArgs :=
  { params := { connectionId := data.options.connectionId,
                boardId := data.options.boardId },
    table := RAW_EPIC_TABLE,
    pageSize := 100,
    incremental := false,
    urlTemplate := "api/2/search",
    concurrency := 10 }

/-- The `Query` closure exactly as `CollectEpics` installs it: the captured
`jql` suffix is built from `data.Since`. -/
def CollectEpicsQuery (data : JiraTaskData) (reqData : RequestData) :
    Except GoPanic (List (String × String) × RequestData) :=
  CollectEpicsQueryWith (mkJql data.since) reqData

/-- Two collector runs target the same logical job when their params and
raw-table target coincide. -/
def sameJob (a b : ApiCollectorArgs) : Prop :=
  a.params = b.params ∧ a.table = b.table

/-- The environment `CollectEpics` runs in: the database, the task data,
an environment-chosen outcome for `helper.NewApiCollector`, and — modelled
from the spec, since the engine's `Execute` is not in the source tree —
the effect trace and outcome of `collector.Execute()`. -/
structure CollectEnv where
  db : Dal
  data : JiraTaskData
  newCollectorErr : Option GoError
  executeEffects : List Effect
  executeResult : Except GoError Unit

/-- The iterator exactly as `CollectEpics` builds it: `GetEpicKeysIterator`
with batch size 100 (epic_collector.go line 52). -/
def CollectEpicsIterator (env : CollectEnv) :
    List Effect × Except GoError BatchedIterator :=
  GetEpicKeysIterator env.db env.data 100

/-- `CollectEpics` (epic_collector.go lines 49-110): build the epic-key
iterator with batch size 100, returning its error if that fails; otherwise
construct the collector (returning its error if construction fails) and
execute it. -/
def CollectEpics (env : CollectEnv) : List Effect × Except GoError Unit :=
  match CollectEpicsIterator env with
  | (fx, .error e) => (fx, .error e)
  | (fx, .ok _) =>
    match env.newCollectorErr with
    | some e => (fx, .error e)
    | none =>
      (fx ++ [.constructCollector, .executeCollector] ++ env.executeEffects,
       env.executeResult)

/-- Modelled from the spec: the Concurrent Collector's bounded worker pool
— the only shared mutable counter is the number of running tasks. -/
structure PoolState where
  running : Nat
  deriving Repr, DecidableEq

/-- Modelled from the spec: a pool step either starts a task (only when a
worker slot is free, i.e. fewer than `c` tasks run) or finishes one. -/
inductive PoolStep (c : Nat) : PoolState → PoolState → Prop where
  | start (s : PoolState) (h : s.running < c) :
      PoolStep c s { running := s.running + 1 }
  | finish (s : PoolState) (h : 0 < s.running) :
      PoolStep c s { running := s.running - 1 }

/-- Modelled from the spec: the pool states reachable from the idle state
by task starts and finishes. -/
def PoolReachable (c : Nat) (s : PoolState) : Prop :=
  Relation.ReflTransGen (PoolStep c) { running := 0 } s

/-- Modelled from the spec: the engine's stop condition for one input
batch's pagination loop — the current page is empty, or the page index has
reached a known total page count. -/
def stopCondition (records : List Json) (pageIndex : Nat)
    (totalPages : Option Nat) : Bool :=
  records.isEmpty ||
    (match totalPages with
     | some t => pageIndex + 1 ≥ t
     | none => false)

/-! ## Helper lemmas -/

lemma derefStrings_encode (keys : List String) :
    derefStrings (keys.map fun k => GoVal.strPtr (some k)) = .ok keys := by
  induction keys with
  | nil => rfl
  | cons k rest ih => simp [derefStrings, ih]

lemma extractEpicKeys_encode (keys : List String) :
    extractEpicKeys (encodeBatch keys) = .ok keys := by
  simp [extractEpicKeys, encodeBatch, derefStrings_encode]

lemma CollectEpicsQueryWith_ok (jql : String) (keys : List String)
    (pager : Pager) (custom : GoVal) :
    CollectEpicsQueryWith jql
        { input := encodeBatch keys, pager := pager, customData := custom } =
      .ok ([("jql", "issue in (" ++ String.intercalate "," keys ++ ") " ++ jql),
            ("startAt", toString pager.skip),
            ("maxResults", toString pager.size),
            ("expand", "changelog")],
           { input := encodeBatch keys, pager := pager, customData := custom }) := by
  unfold CollectEpicsQueryWith
  rw [show ({ input := encodeBatch keys, pager := pager,
              customData := custom } : RequestData).input = encodeBatch keys
        from rfl,
      extractEpicKeys_encode]
  rfl

lemma derefStrings_error_of_malformed (xs : List GoVal)
    (h : xs.all isNonNilStrPtr = false) : ∃ p, derefStrings xs = .error p := by
  induction xs with
  | nil => simp at h
  | cons x rest ih =>
    cases x with
    | strPtr s =>
      cases s with
      | none => exact ⟨.nilDeref, rfl⟩
      | some v =>
        rw [List.all_cons] at h
        simp only [isNonNilStrPtr, Bool.true_and] at h
        obtain ⟨p, hp⟩ := ih h
        exact ⟨p, by simp [derefStrings, hp]⟩
    | slice xs => exact ⟨.typeAssertion, rfl⟩
    | intVal n => exact ⟨.typeAssertion, rfl⟩
    | strVal s => exact ⟨.typeAssertion, rfl⟩
    | nilVal => exact ⟨.typeAssertion, rfl⟩

lemma derefStrings_ok_of_wellShaped (xs : List GoVal)
    (h : xs.all isNonNilStrPtr = true) : ∃ ks, derefStrings xs = .ok ks := by
  induction xs with
  | nil => exact ⟨[], rfl⟩
  | cons x rest ih =>
    rw [List.all_cons] at h
    cases x with
    | strPtr s =>
      cases s with
      | none => simp [isNonNilStrPtr] at h
      | some v =>
        simp only [isNonNilStrPtr, Bool.true_and] at h
        obtain ⟨ks, hks⟩ := ih h
        exact ⟨v :: ks, by simp [derefStrings, hks]⟩
    | slice xs => simp [isNonNilStrPtr] at h
    | intVal n => simp [isNonNilStrPtr] at h
    | strVal s => simp [isNonNilStrPtr] at h
    | nilVal => simp [isNonNilStrPtr] at h

/-! ## Claim theorems: the Query closure -/

/-- C1: for every input batch and pagination state, the `Query` function of
`CollectEpics` returns parameters with exactly the keys `jql`, `startAt`,
`maxResults`, `expand`; `jql` embeds every key of the batch in the single
string `issue in (k1,...,kn)` joined by commas followed by the
ordering/time clause, `startAt` is the pager's Skip, `maxResults` the
pager's Size, and `expand` is `changelog`; the whole batch goes into this
one request. -/
theorem collectEpics_query_params (data : JiraTaskData) (keys : List String)
    (pager : Pager) (custom : GoVal) :
    CollectEpicsQuery data
        { input := encodeBatch keys, pager := pager, customData := custom } =
      .ok ([("jql",
             "issue in (" ++ String.intercalate "," keys ++ ") " ++
               mkJql data.since),
            ("startAt", toString pager.skip),
            ("maxResults", toString pager.size),
            ("expand", "changelog")],
           { input := encodeBatch keys, pager := pager,
             customData := custom }) ∧
    (∀ vals rd,
      CollectEpicsQuery data
          { input := encodeBatch keys, pager := pager, customData := custom } =
        .ok (vals, rd) →
      vals.map Prod.fst = ["jql", "startAt", "maxResults", "expand"] ∧
      urlValuesGet vals "jql" =
        some ("issue in (" ++ String.intercalate "," keys ++ ") " ++
          mkJql data.since) ∧
      urlValuesGet vals "startAt" = some (toString pager.skip) ∧
      urlValuesGet vals "maxResults" = some (toString pager.size) ∧
      urlValuesGet vals "expand" = some "changelog") := by
  have h := CollectEpicsQueryWith_ok (mkJql data.since) keys pager custom
  refine ⟨h, ?_⟩
  intro vals rd hv
  rw [CollectEpicsQuery, h] at hv
  obtain ⟨h1, h2⟩ := Prod.mk.injEq .. ▸ (Except.ok.injEq .. ▸ hv)
  subst h1
  exact ⟨rfl, rfl, rfl, rfl, rfl⟩

/-- C1 witness: a concrete batch, pager and since evaluate as stated. -/
theorem collectEpics_query_params_witness :
    urlValuesGet
        [("jql", "issue in (A-1,B-2) ORDER BY created ASC"),
         ("startAt", "50"), ("maxResults", "100"), ("expand", "changelog")]
        "jql" = some "issue in (A-1,B-2) ORDER BY created ASC" := by
  have h := (collectEpics_query_params
    { options := { connectionId := 1, boardId := 2 }, since := none }
    ["A-1", "B-2"] { skip := 50, size := 100 } .nilVal).2
    [("jql", "issue in (A-1,B-2) ORDER BY created ASC"),
     ("startAt", "50"), ("maxResults", "100"), ("expand", "changelog")]
    { input := encodeBatch ["A-1", "B-2"], pager := { skip := 50, size := 100 },
      customData := .nilVal } rfl
  exact h.2.1

/-- C8: the Query closure is deterministic and side-effect free — the
request data it returns is the one it was given (no mutation), and the
parameter map it builds depends only on the input batch and the pager. -/
theorem collectEpics_query_deterministic (data : JiraTaskData)
    (r r' : RequestData) (hin : r.input = r'.input) (hp : r.pager = r'.pager) :
    (∀ vals r₂, CollectEpicsQuery data r = .ok (vals, r₂) → r₂ = r) ∧
    Except.map Prod.fst (CollectEpicsQuery data r) =
      Except.map Prod.fst (CollectEpicsQuery data r') := by
  constructor
  · intro vals r₂ h
    rw [CollectEpicsQuery, CollectEpicsQueryWith] at h
    cases he : extractEpicKeys r.input with
    | error p => rw [he] at h; exact absurd h (by simp)
    | ok ks =>
      rw [he] at h
      simp only [Except.ok.injEq, Prod.mk.injEq] at h
      exact h.2.symm
  · rw [CollectEpicsQuery, CollectEpicsQuery, CollectEpicsQueryWith,
        CollectEpicsQueryWith, hin, hp]
    cases extractEpicKeys r'.input <;> rfl

/-- C8 witness: two request data differing only in fields the closure does
not read produce the same parameter map. -/
theorem collectEpics_query_deterministic_witness :
    Except.map Prod.fst
        (CollectEpicsQuery
          { options := { connectionId := 1, boardId := 2 }, since := none }
          { input := encodeBatch ["A-1"], pager := { skip := 0, size := 100 },
            customData := .nilVal }) =
      Except.map Prod.fst
        (CollectEpicsQuery
          { options := { connectionId := 1, boardId := 2 }, since := none }
          { input := encodeBatch ["A-1"], pager := { skip := 0, size := 100 },
            customData := .intVal 7 }) :=
  (collectEpics_query_deterministic
    { options := { connectionId := 1, boardId := 2 }, since := none }
    { input := encodeBatch ["A-1"], pager := { skip := 0, size := 100 },
      customData := .nilVal }
    { input := encodeBatch ["A-1"], pager := { skip := 0, size := 100 },
      customData := .intVal 7 } rfl rfl).2

/-- C9: the Query closure requires its input to be a `[]interface{}` of
non-nil `*string`s: on a well-shaped input it succeeds, and on any input
violating that shape it panics (failed type assertion or nil dereference)
instead of returning an error value. -/
theorem collectEpics_query_panics_on_malformed (data : JiraTaskData)
    (pager : Pager) (custom : GoVal) :
    (∀ input, wellShapedInput input = true →
      ∃ out, CollectEpicsQuery data
          { input := input, pager := pager, customData := custom } =
        .ok out) ∧
    (∀ input, wellShapedInput input = false →
      ∃ p, CollectEpicsQuery data
          { input := input, pager := pager, customData := custom } =
        .error p) := by
  constructor
  · intro input h
    cases input with
    | slice xs =>
      rw [wellShapedInput] at h
      obtain ⟨ks, hks⟩ := derefStrings_ok_of_wellShaped xs h
      refine ⟨([("jql",
                 "issue in (" ++ String.intercalate "," ks ++ ") " ++
                   mkJql data.since),
                ("startAt", toString pager.skip),
                ("maxResults", toString pager.size),
                ("expand", "changelog")],
               { input := GoVal.slice xs, pager := pager,
                 customData := custom }), ?_⟩
      rw [CollectEpicsQuery, CollectEpicsQueryWith]
      rw [show ({ input := GoVal.slice xs, pager := pager,
                  customData := custom } : RequestData).input = .slice xs
            from rfl]
      rw [show extractEpicKeys (.slice xs) = derefStrings xs from rfl, hks]
      rfl
    | strPtr s => simp [wellShapedInput] at h
    | intVal n => simp [wellShapedInput] at h
    | strVal s => simp [wellShapedInput] at h
    | nilVal => simp [wellShapedInput] at h
  · intro input h
    cases input with
    | slice xs =>
      rw [wellShapedInput] at h
      obtain ⟨p, hp⟩ := derefStrings_error_of_malformed xs h
      refine ⟨p, ?_⟩
      rw [CollectEpicsQuery, CollectEpicsQueryWith]
      rw [show ({ input := GoVal.slice xs, pager := pager,
                  customData := custom } : RequestData).input = .slice xs
            from rfl]
      rw [show extractEpicKeys (.slice xs) = derefStrings xs from rfl, hp]
    | strPtr s => exact ⟨.typeAssertion, rfl⟩
    | intVal n => exact ⟨.typeAssertion, rfl⟩
    | strVal s => exact ⟨.typeAssertion, rfl⟩
    | nilVal => exact ⟨.typeAssertion, rfl⟩

/-- C9 witness: on a non-slice input the closure panics. -/
theorem collectEpics_query_panics_witness :
    ∃ p, CollectEpicsQuery
        { options := { connectionId := 1, boardId := 2 }, since := none }
        { input := .intVal 0, pager := { skip := 0, size := 100 },
          customData := .nilVal } = .error p :=
  (collectEpics_query_panics_on_malformed
    { options := { connectionId := 1, boardId := 2 }, since := none }
    { skip := 0, size := 100 } .nilVal).2 (.intVal 0) rfl

/-- C4 counterexample: with a non-nil `since`, the `jql` query value does
not begin with the time-lower-bound clause — it begins with the issue
filter, the time bound coming only after it. -/
theorem epic_jql_time_bound_counterexample :
    CollectEpicsQuery
        { options := { connectionId := 1, boardId := 1 },
          since := some { year := 2021, month := 1, day := 2, hour := 3,
                          minute := 4 } }
        { input := encodeBatch ["TEST-1"], pager := { skip := 0, size := 100 },
          customData := .nilVal } =
      .ok ([("jql",
             "issue in (TEST-1) updated >= '2021/01/02 03:04' ORDER BY created ASC"),
            ("startAt", "0"), ("maxResults", "100"), ("expand", "changelog")],
           { input := encodeBatch ["TEST-1"],
             pager := { skip := 0, size := 100 }, customData := .nilVal }) ∧
    strBeginsWith
        "issue in (TEST-1) updated >= '2021/01/02 03:04' ORDER BY created ASC"
        "updated >= '" = false :=
  ⟨rfl, by decide⟩

/-- C4 amended: the `jql` query value is the issue filter followed by the
clause suffix; that suffix — not the whole value — begins with the
time-lower-bound `updated >= '<since>' ` exactly when `data.Since` is
non-nil, and with `Since` nil it is exactly `ORDER BY created ASC`, with
no time bound. -/
theorem epic_jql_time_bound_amended (data : JiraTaskData) (keys : List String)
    (pager : Pager) (custom : GoVal) :
    (∀ vals rd,
      CollectEpicsQuery data
          { input := encodeBatch keys, pager := pager, customData := custom } =
        .ok (vals, rd) →
      urlValuesGet vals "jql" =
        some ("issue in (" ++ String.intercalate "," keys ++ ") " ++
          mkJql data.since)) ∧
    (data.since = none →
      mkJql data.since = "ORDER BY created ASC" ∧
      strBeginsWith (mkJql data.since) "updated >= '" = false) ∧
    (∀ t, data.since = some t →
      mkJql data.since =
        "updated >= '" ++ formatSince t ++ "' " ++ "ORDER BY created ASC" ∧
      strBeginsWith (mkJql data.since)
        ("updated >= '" ++ formatSince t ++ "' ") = true) := by
  refine ⟨?_, ?_, ?_⟩
  · intro vals rd h
    simp only [CollectEpicsQuery] at h
    rw [CollectEpicsQueryWith_ok] at h
    simp only [Except.ok.injEq, Prod.mk.injEq] at h
    rw [← h.1]
    rfl
  · intro h
    rw [h]
    exact ⟨rfl, by decide⟩
  · intro t ht
    rw [ht]
    refine ⟨rfl, ?_⟩
    rw [show mkJql (some t) =
          "updated >= '" ++ formatSince t ++ "' " ++ "ORDER BY created ASC"
        from rfl]
    rw [strBeginsWith, String.data_append]
    exact List.isPrefixOf_iff_prefix.mpr (List.prefix_append _ _)

/-- C4 witness: a concrete invocation of the amended statement, with the
`jql` value of a since-free run spelled out. -/
theorem epic_jql_time_bound_amended_witness :
    urlValuesGet
        [("jql", "issue in (E-1) ORDER BY created ASC"), ("startAt", "0"),
         ("maxResults", "50"), ("expand", "changelog")] "jql" =
      some ("issue in (E-1) ORDER BY created ASC") :=
  (epic_jql_time_bound_amended
    { options := { connectionId := 1, boardId := 1 }, since := none }
    ["E-1"] { skip := 0, size := 50 } .nilVal).1
    [("jql", "issue in (E-1) ORDER BY created ASC"), ("startAt", "0"),
     ("maxResults", "50"), ("expand", "changelog")]
    { input := encodeBatch ["E-1"], pager := { skip := 0, size := 50 },
      customData := .nilVal } rfl

/-! ## The response parser -/

lemma decodeIssuesFields_spec (fields : List (String × Json))
    (cur : List Json) :
    decodeIssuesFields fields cur =
      if (matchingIssuesValues fields).all
           (fun v => (decodeIssuesField v).isSome) then
        some (((matchingIssuesValues fields).getLast?.map
                 fun v => (decodeIssuesField v).getD []).getD cur)
      else none := by
  induction fields generalizing cur with
  | nil => rfl
  | cons kv rest ih =>
    obtain ⟨k, v⟩ := kv
    by_cases hk : keyMatchesIssues k = true
    · have hm : matchingIssuesValues ((k, v) :: rest) =
          v :: matchingIssuesValues rest := by
        simp [matchingIssuesValues, hk]
      rw [hm]
      cases hv : decodeIssuesField v with
      | none => simp [decodeIssuesFields, hk, hv]
      | some xs =>
        rw [show decodeIssuesFields ((k, v) :: rest) cur =
              decodeIssuesFields rest xs from by
            simp [decodeIssuesFields, hk, hv]]
        rw [ih]
        cases hmv : matchingIssuesValues rest with
        | nil => simp [hv]
        | cons a l =>
          simp only [List.all_cons, hv, Option.isSome_some, Bool.true_and,
            List.getLast?_cons_cons]
          cases hlast : (a :: l).getLast? with
          | none => simp [List.getLast?_eq_none_iff] at hlast
          | some w => simp
    · have hm : matchingIssuesValues ((k, v) :: rest) =
          matchingIssuesValues rest := by
        simp [matchingIssuesValues, hk]
      rw [hm]
      rw [show decodeIssuesFields ((k, v) :: rest) cur =
            decodeIssuesFields rest cur from by
          simp [decodeIssuesFields, hk]]
      exact ih cur

lemma unmarshalIssues_obj_none_iff (fields : List (String × Json)) :
    unmarshalIssues (.obj fields) = none ↔
      ∃ v ∈ matchingIssuesValues fields, decodeIssuesField v = none := by
  rw [show unmarshalIssues (.obj fields) = decodeIssuesFields fields [] from
        rfl,
      decodeIssuesFields_spec]
  by_cases hall : (matchingIssuesValues fields).all
      (fun v => (decodeIssuesField v).isSome) = true
  · rw [if_pos hall]
    constructor
    · intro h
      exact absurd h (by simp)
    · rintro ⟨v, hv, hnone⟩
      rw [List.all_eq_true] at hall
      have := hall v hv
      rw [hnone] at this
      exact absurd this (by simp)
  · rw [if_neg hall]
    constructor
    · intro _
      have : ∃ v ∈ matchingIssuesValues fields,
          ¬ ((decodeIssuesField v).isSome = true) := by
        simpa [List.all_eq_true] using hall
      obtain ⟨v, hv, hns⟩ := this
      exact ⟨v, hv, Option.not_isSome_iff_eq_none.mp hns⟩
    · intro _
      rfl

/-- C2: the `ResponseParser` of `CollectEpics` errors exactly when reading
the body fails or the body does not decode as JSON for the struct with the
`issues` field (invalid JSON, a top level that is neither an object nor
null, or a matching `issues` member that is neither an array nor null);
otherwise it returns the records found under the `issues` field in body
order — in particular, the array stored under the last matching `issues`
member is returned as-is. -/
theorem collectEpics_responseParser_spec (res : HttpResponse) :
    ((∃ e, CollectEpicsResponseParser res = .error e) ↔
      (res.readErr = true ∨ res.json = none ∨
        ∃ j, res.json = some j ∧ unmarshalIssues j = none)) ∧
    (∀ fields, unmarshalIssues (Json.obj fields) = none ↔
      ∃ v ∈ matchingIssuesValues fields, decodeIssuesField v = none) ∧
    (∀ j issues, res.readErr = false → res.json = some j →
      unmarshalIssues j = some issues →
      CollectEpicsResponseParser res = .ok issues) ∧
    (∀ fields l, res.readErr = false → res.json = some (Json.obj fields) →
      (∀ v ∈ matchingIssuesValues fields,
        (decodeIssuesField v).isSome = true) →
      (matchingIssuesValues fields).getLast? = some (Json.arr l) →
      CollectEpicsResponseParser res = .ok l) := by
  refine ⟨?_, fun fields => unmarshalIssues_obj_none_iff fields, ?_, ?_⟩
  · cases hre : res.readErr with
    | true => simp [CollectEpicsResponseParser, hre]
    | false =>
      cases hj : res.json with
      | none => simp [CollectEpicsResponseParser, hre, hj]
      | some j =>
        cases hm : unmarshalIssues j with
        | none => simp [CollectEpicsResponseParser, hre, hj, hm]
        | some issues => simp [CollectEpicsResponseParser, hre, hj, hm]
  · intro j issues h1 h2 h3
    simp [CollectEpicsResponseParser, h1, h2, h3]
  · intro fields l h1 h2 hall hlast
    have hdec : unmarshalIssues (.obj fields) = some l := by
      rw [show unmarshalIssues (.obj fields) = decodeIssuesFields fields []
            from rfl,
          decodeIssuesFields_spec, if_pos (List.all_eq_true.mpr hall), hlast]
      rfl
    simp [CollectEpicsResponseParser, h1, h2, hdec]

/-- C2 witness: a body carrying two issues is split into those two records
in order. -/
theorem collectEpics_responseParser_spec_witness :
    CollectEpicsResponseParser
        { readErr := false,
          json := some (.obj [("issues", .arr [.num 1, .num 2])]) } =
      .ok [.num 1, .num 2] :=
  (collectEpics_responseParser_spec
    { readErr := false,
      json := some (.obj [("issues", .arr [.num 1, .num 2])]) }).2.2.2
    [("issues", .arr [.num 1, .num 2])] [.num 1, .num 2] rfl rfl
    (by
      intro v hv
      simp [matchingIssuesValues, keyMatchesIssues] at hv
      rw [hv]
      rfl)
    (by simp [matchingIssuesValues, keyMatchesIssues])

/-- C10 counterexample: a body that is syntactically valid JSON and lacks
an `issues` field but is not an object (here: a JSON array) makes the
parser return an unmarshal error, not an empty record sequence. -/
theorem responseParser_nonobject_counterexample :
    CollectEpicsResponseParser { readErr := false, json := some (.arr []) } =
      .error .unmarshalFailed ∧
    ¬ CollectEpicsResponseParser { readErr := false, json := some (.arr []) } =
      .ok [] :=
  ⟨rfl, by
    intro h
    rw [show CollectEpicsResponseParser
          { readErr := false, json := some (.arr []) } =
        .error .unmarshalFailed from rfl] at h
    exact absurd h (by simp)⟩

/-- C10 amended: for every response body that is a syntactically valid
JSON *object* lacking an `issues` member (or whose matching `issues`
members are all null), the parser returns an empty record sequence and no
error, and under the engine's stop condition this counts as an empty page
terminating the batch's pagination. -/
theorem responseParser_missing_issues_empty (fields : List (String × Json))
    (pageIndex : Nat) (totalPages : Option Nat)
    (h : ∀ kv ∈ fields, keyMatchesIssues kv.1 = true → kv.2 = Json.null) :
    CollectEpicsResponseParser
        { readErr := false, json := some (.obj fields) } = .ok [] ∧
    stopCondition [] pageIndex totalPages = true := by
  have hmv : ∀ v ∈ matchingIssuesValues fields, v = Json.null := by
    intro v hv
    simp only [matchingIssuesValues, List.mem_map, List.mem_filter] at hv
    obtain ⟨kv, ⟨hkvmem, hkmatch⟩, hveq⟩ := hv
    rw [← hveq]
    exact h kv hkvmem hkmatch
  have hdec : unmarshalIssues (.obj fields) = some [] := by
    rw [show unmarshalIssues (.obj fields) = decodeIssuesFields fields [] from
          rfl,
        decodeIssuesFields_spec]
    have hall : (matchingIssuesValues fields).all
        (fun v => (decodeIssuesField v).isSome) = true := by
      rw [List.all_eq_true]
      intro v hv
      rw [hmv v hv]
      rfl
    rw [if_pos hall]
    cases hlast : (matchingIssuesValues fields).getLast? with
    | none => rfl
    | some v =>
      have hvmem : v ∈ matchingIssuesValues fields := by
        have hvin : v ∈ (matchingIssuesValues fields).getLast? := by
          rw [hlast]; rfl
        obtain ⟨hne, hx⟩ := List.mem_getLast?_eq_getLast hvin
        rw [hx]
        exact List.getLast_mem hne
      rw [hmv v hvmem]
      rfl
  exact ⟨by simp [CollectEpicsResponseParser, hdec], rfl⟩

/-- C10 witness: the empty JSON object yields the empty record sequence
and an immediately true stop condition. -/
theorem responseParser_missing_issues_empty_witness :
    CollectEpicsResponseParser
        { readErr := false, json := some (.obj []) } = .ok [] ∧
    stopCondition [] 0 none = true :=
  responseParser_missing_issues_empty [] 0 none (by intro kv hkv; simp at hkv)

/-! ## Control flow, collector construction, concurrency -/

/-- C3: if the input database query fails, `CollectEpics` returns that
error wrapped with "unable to query for external epics"; if the batched
iterator cannot be built, it returns that error as-is.  In both cases it
returns before the collector is constructed or executed, so no remote
request is issued. -/
theorem collectEpics_fails_before_collector (env : CollectEnv) :
    (∀ e, env.db.cursorErr = some e →
      CollectEpics env =
        ([.dbQuery],
         .error (.wrap "unable to query for external epics" e))) ∧
    (∀ e, env.db.cursorErr = none → env.db.iterErr = some e →
      CollectEpics env = ([.dbQuery, .buildIterator], .error e)) ∧
    (∀ fx r, CollectEpics env = (fx, r) →
      (env.db.cursorErr ≠ none ∨ env.db.iterErr ≠ none) →
      Effect.constructCollector ∉ fx ∧ Effect.executeCollector ∉ fx ∧
        Effect.remoteRequest ∉ fx) := by
  have h1 : ∀ e, env.db.cursorErr = some e →
      CollectEpics env =
        ([.dbQuery],
         .error (.wrap "unable to query for external epics" e)) := by
    intro e he
    simp [CollectEpics, CollectEpicsIterator, GetEpicKeysIterator, he]
  have h2 : ∀ e, env.db.cursorErr = none → env.db.iterErr = some e →
      CollectEpics env = ([.dbQuery, .buildIterator], .error e) := by
    intro e hn he
    simp [CollectEpics, CollectEpicsIterator, GetEpicKeysIterator, hn, he]
  refine ⟨h1, h2, ?_⟩
  intro fx r hfx hor
  cases he : env.db.cursorErr with
  | some e =>
    rw [h1 e he] at hfx
    obtain ⟨hfx1, hfx2⟩ := Prod.mk.injEq .. ▸ hfx
    rw [← hfx1]
    exact ⟨by decide, by decide, by decide⟩
  | none =>
    cases hie : env.db.iterErr with
    | some e =>
      rw [h2 e he hie] at hfx
      obtain ⟨hfx1, hfx2⟩ := Prod.mk.injEq .. ▸ hfx
      rw [← hfx1]
      exact ⟨by decide, by decide, by decide⟩
    | none =>
      rcases hor with hcur | hit
      · exact absurd he hcur
      · exact absurd hie hit

/-- C3 witness: a failing cursor query surfaces as the wrapped error with
no collector-side effect. -/
theorem collectEpics_fails_before_collector_witness :
    CollectEpics
        { db := { issues := [], board_issues := [],
                  cursorErr := some (.base "db down"), iterErr := none },
          data := { options := { connectionId := 1, boardId := 2 },
                    since := none },
          newCollectorErr := none, executeEffects := [],
          executeResult := .ok () } =
      ([.dbQuery],
       .error (.wrap "unable to query for external epics" (.base "db down"))) :=
  (collectEpics_fails_before_collector
    { db := { issues := [], board_issues := [],
              cursorErr := some (.base "db down"), iterErr := none },
      data := { options := { connectionId := 1, boardId := 2 },
                since := none },
      newCollectorErr := none, executeEffects := [],
      executeResult := .ok () }).1 (.base "db down") rfl

lemma poolSteps_running_le (c : Nat) (s : PoolState)
    (h : Relation.ReflTransGen (PoolStep c) { running := 0 } s) :
    s.running ≤ c := by
  induction h with
  | refl => exact Nat.zero_le c
  | tail hsteps hstep ih =>
    cases hstep with
    | start h' => exact h'
    | finish h' => exact le_trans (Nat.sub_le _ _) ih

/-- C5: the collector is configured with Concurrency 10, and — in the
spec-modelled worker pool — every reachable pool state runs at most that
many tasks at once. -/
theorem collectEpics_concurrency_bound (data : JiraTaskData) (s : PoolState)
    (h : PoolReachable (mkEpicCollectorArgs data).concurrency s) :
    (mkEpicCollectorArgs data).concurrency = 10 ∧ s.running ≤ 10 :=
  ⟨rfl, poolSteps_running_le 10 s h⟩

/-- C5 witness: the idle pool is reachable and within the bound. -/
theorem collectEpics_concurrency_bound_witness :
    (mkEpicCollectorArgs
        { options := { connectionId := 1, boardId := 2 }, since := none }
      ).concurrency = 10 ∧
    ({ running := 0 } : PoolState).running ≤ 10 :=
  collectEpics_concurrency_bound
    { options := { connectionId := 1, boardId := 2 }, since := none }
    { running := 0 } Relation.ReflTransGen.refl

/-- C6: `CollectEpics` constructs the collector non-incrementally, with
params consisting exactly of the connection id and board id from the task
options and raw table `jira_api_epics`; two runs with equal options target
the same logical job. -/
theorem collectEpics_collector_args (d1 d2 : JiraTaskData) :
    (mkEpicCollectorArgs d1).incremental = false ∧
    (mkEpicCollectorArgs d1).params =
      { connectionId := d1.options.connectionId,
        boardId := d1.options.boardId } ∧
    (mkEpicCollectorArgs d1).table = "jira_api_epics" ∧
    (d1.options.connectionId = d2.options.connectionId →
      d1.options.boardId = d2.options.boardId →
      sameJob (mkEpicCollectorArgs d1) (mkEpicCollectorArgs d2)) := by
  refine ⟨rfl, rfl, rfl, ?_⟩
  intro hc hb
  exact ⟨by simp [mkEpicCollectorArgs, hc, hb], rfl⟩

/-- C6 witness: two runs differing only in the since watermark are the
same logical job. -/
theorem collectEpics_collector_args_witness :
    sameJob
      (mkEpicCollectorArgs
        { options := { connectionId := 3, boardId := 4 }, since := none })
      (mkEpicCollectorArgs
        { options := { connectionId := 3, boardId := 4 },
          since := some { year := 2020, month := 1, day := 1, hour := 0,
                          minute := 0 } }) :=
  (collectEpics_collector_args
    { options := { connectionId := 3, boardId := 4 }, since := none }
    { options := { connectionId := 3, boardId := 4 },
      since := some { year := 2020, month := 1, day := 1, hour := 0,
                      minute := 0 } }).2.2.2 rfl rfl

lemma mem_leftJoin_some (issues : List JiraIssueRow)
    (bis : List JiraBoardIssueRow) (i : JiraIssueRow)
    (bi : JiraBoardIssueRow) :
    (i, some bi) ∈ leftJoinBoardIssues issues bis ↔
      (i ∈ issues ∧ bi ∈ bis ∧ bi.connection_id = i.connection_id ∧
        bi.issue_id = i.issue_id) := by
  rw [leftJoinBoardIssues, List.mem_flatMap]
  constructor
  · rintro ⟨i', hi', hmem⟩
    by_cases hemp : (bis.filter fun b =>
        b.connection_id = i'.connection_id &&
          b.issue_id = i'.issue_id).isEmpty = true
    · rw [if_pos hemp] at hmem
      simp at hmem
    · rw [if_neg hemp, List.mem_map] at hmem
      obtain ⟨b, hb, heq⟩ := hmem
      obtain ⟨heq1, heq2⟩ := Prod.mk.injEq .. ▸ heq
      obtain heq2 := Option.some.injEq .. ▸ heq2
      subst heq1 heq2
      rw [List.mem_filter] at hb
      obtain ⟨hbis, hcond⟩ := hb
      simp only [Bool.and_eq_true, decide_eq_true_eq] at hcond
      exact ⟨hi', hbis, hcond.1, hcond.2⟩
  · rintro ⟨hi_, hbi, hc, hid⟩
    refine ⟨i, hi_, ?_⟩
    have hmemf : bi ∈ bis.filter (fun b =>
        b.connection_id = i.connection_id && b.issue_id = i.issue_id) := by
      rw [List.mem_filter]
      exact ⟨hbi, by simp [hc, hid]⟩
    have hne : ¬ ((bis.filter fun b =>
        b.connection_id = i.connection_id &&
          b.issue_id = i.issue_id).isEmpty = true) := by
      intro hemp
      rw [List.isEmpty_iff] at hemp
      rw [hemp] at hmemf
      simp at hmemf
    rw [if_neg hne, List.mem_map]
    exact ⟨bi, hmemf, rfl⟩

lemma mem_epicKeysQuery (issues : List JiraIssueRow)
    (bis : List JiraBoardIssueRow) (connId boardId : Nat) (k : String) :
    k ∈ epicKeysQuery issues bis connId boardId ↔
      (k ≠ "" ∧ ∃ i ∈ issues, ∃ bi ∈ bis,
        i.epic_key = k ∧ i.connection_id = connId ∧
        bi.board_id = boardId ∧ bi.connection_id = i.connection_id ∧
        bi.issue_id = i.issue_id) := by
  rw [epicKeysQuery, List.mem_dedup, List.mem_map]
  constructor
  · rintro ⟨⟨i, obi⟩, hmem, hkey⟩
    rw [List.mem_filter] at hmem
    obtain ⟨hjoin, hwhere⟩ := hmem
    cases obi with
    | none => simp [epicKeyWhere] at hwhere
    | some bi =>
      simp only [epicKeyWhere, Bool.and_eq_true, decide_eq_true_eq] at hwhere
      obtain ⟨⟨hconn, hboard⟩, hkne⟩ := hwhere
      rw [mem_leftJoin_some] at hjoin
      obtain ⟨hi_, hbi, hbc, hbid⟩ := hjoin
      exact ⟨hkey ▸ hkne, i, hi_, bi, hbi, hkey, hconn, hboard, hbc, hbid⟩
  · rintro ⟨hkne, i, hi_, bi, hbi, hkey, hconn, hboard, hbc, hbid⟩
    refine ⟨(i, some bi), ?_, hkey⟩
    rw [List.mem_filter]
    constructor
    · rw [mem_leftJoin_some]
      exact ⟨hi_, hbi, hbc, hbid⟩
    · simp only [epicKeyWhere, Bool.and_eq_true, decide_eq_true_eq]
      exact ⟨⟨hconn, hboard⟩, hkey ▸ hkne⟩

/-- C7: `GetEpicKeysIterator` builds its input from the read-only query
selecting DISTINCT epic keys of the Jira issues joined to board issues,
restricted to the task's connection id and board id and to non-empty epic
keys, and the result is consumed through the batched cursor iterator with
the given batch size — 100 at the `CollectEpics` call site. -/
theorem getEpicKeysIterator_query_spec (db : Dal) (data : JiraTaskData)
    (batchSize : Nat) (hc : db.cursorErr = none) (hi : db.iterErr = none) :
    (GetEpicKeysIterator db data batchSize).2 =
      .ok { rows := epicKeysQuery db.issues db.board_issues
                      data.options.connectionId data.options.boardId,
            batchSize := batchSize } ∧
    (epicKeysQuery db.issues db.board_issues data.options.connectionId
        data.options.boardId).Nodup ∧
    (∀ k, k ∈ epicKeysQuery db.issues db.board_issues
          data.options.connectionId data.options.boardId ↔
      (k ≠ "" ∧ ∃ i ∈ db.issues, ∃ bi ∈ db.board_issues,
        i.epic_key = k ∧ i.connection_id = data.options.connectionId ∧
        bi.board_id = data.options.boardId ∧
        bi.connection_id = i.connection_id ∧
        bi.issue_id = i.issue_id)) ∧
    (∀ env it, (CollectEpicsIterator env).2 = .ok it →
      it.batchSize = 100) := by
  refine ⟨by simp [GetEpicKeysIterator, hc, hi], List.nodup_dedup _,
    fun k => mem_epicKeysQuery db.issues db.board_issues
      data.options.connectionId data.options.boardId k, ?_⟩
  intro env it hit
  rw [CollectEpicsIterator, GetEpicKeysIterator] at hit
  cases henv : env.db.cursorErr with
  | some e => rw [henv] at hit; exact absurd hit (by simp)
  | none =>
    rw [henv] at hit
    cases hite : env.db.iterErr with
    | some e => rw [hite] at hit; exact absurd hit (by simp)
    | none =>
      rw [hite] at hit
      simp only [Except.ok.injEq] at hit
      rw [← hit]

/-- C7 witness: a one-row database produces the expected iterator. -/
theorem getEpicKeysIterator_query_spec_witness :
    (GetEpicKeysIterator
        { issues := [{ connection_id := 1, issue_id := 10,
                       epic_key := "E-1" }],
          board_issues := [{ connection_id := 1, board_id := 2,
                             issue_id := 10 }],
          cursorErr := none, iterErr := none }
        { options := { connectionId := 1, boardId := 2 }, since := none }
        100).2 =
      .ok { rows := epicKeysQuery
                      [{ connection_id := 1, issue_id := 10,
                         epic_key := "E-1" }]
                      [{ connection_id := 1, board_id := 2, issue_id := 10 }]
                      1 2,
            batchSize := 100 } :=
  (getEpicKeysIterator_query_spec
    { issues := [{ connection_id := 1, issue_id := 10, epic_key := "E-1" }],
      board_issues := [{ connection_id := 1, board_id := 2, issue_id := 10 }],
      cursorErr := none, iterErr := none }
    { options := { connectionId := 1, boardId := 2 }, since := none }
    100 rfl rfl).1

end EpicCollector
